import Mathlib

/-!
# Verification of the multi-provider AI orchestration layer

Shallow embedding of `src/services/AIService.js` (class `MultiAIService`):
the provider registry, the timed cooldown mechanism (`markProviderUnavailable`
and its `setTimeout` restoration callback), the failure classifier
(`_isBalanceError`), the JSON extraction / repair routine (`_extractJSON`
together with a model of JavaScript's `JSON.parse` and of the two regular
expressions it uses), and the three failover loops (`generateFinalSummary`,
`analyzeLegalSituation`, `generateResponse`).

Provider network calls are modelled as an environment parameter
`api : String → Except JsError …` giving, per provider key, either the raw
text produced by the provider or the thrown error.  Timers are modelled
explicitly: `setTimeout(cb, d)` at time `now` appends a pending event
`(now + d, key)`; `advanceTo` fires every event that has come due.  Since
each restoration callback only (idempotently) sets `available := true` for
its own key, the firing order of simultaneously due events does not affect
the resulting state.
-/

namespace AIService

/-! ## JavaScript value model (results of `JSON.parse`) -/

/-- A JSON value as produced by `JSON.parse`.  Numbers keep their source
lexeme (all concrete inputs in this development use canonical lexemes, so
lexeme equality coincides with JS number equality on them). -/
inductive JValue where
  | jnull
  | jbool (b : Bool)
  | jnum (lexeme : String)
  | jstr (s : String)
  | jarr (elems : List JValue)
  | jobj (fields : List (String × JValue))
deriving Repr

/-- Characters that are brace / backtick literals, kept out of char literals. -/
def lbrace : Char := Char.ofNat 123

def rbrace : Char := Char.ofNat 125

def btick : Char := Char.ofNat 96

/-- JavaScript `\s` whitespace (the subset relevant to the inputs considered:
space, tab, newline, carriage return, vertical tab, form feed). -/
def jsWs (c : Char) : Bool :=
  c = ' ' || c = '\t' || c = '\n' || c = '\r' || c = Char.ofNat 11 || c = Char.ofNat 12

def skipWs : List Char → List Char
  | [] => []
  | c :: cs => if jsWs c then skipWs cs else c :: cs

/-- Trim `\s` from both ends (JS `String.prototype.trim`, and the net effect
of the `\s*(…)\s*` groups in the fence regex). -/
def trimWsList (cs : List Char) : List Char :=
  ((cs.dropWhile jsWs).reverse.dropWhile jsWs).reverse

/-! ## A model of `JSON.parse`

Recursive-descent parser for the JSON grammar: values are `null`, `true`,
`false`, strings with escapes, numbers, arrays and objects; parsing must
consume the whole input up to trailing whitespace, as `JSON.parse` does.
`fuel` strictly decreases on every recursive call; the top entry point
supplies `length + 1`, which suffices because every recursive call consumes
at least one input character first. -/

def hexDigitVal (c : Char) : Option Nat :=
  if '0' ≤ c ∧ c ≤ '9' then some (c.toNat - '0'.toNat)
  else if 'a' ≤ c ∧ c ≤ 'f' then some (c.toNat - 'a'.toNat + 10)
  else if 'A' ≤ c ∧ c ≤ 'F' then some (c.toNat - 'A'.toNat + 10)
  else none

/-- Body of a JSON string after the opening quote: returns the decoded
characters and the remaining input after the closing quote.  Unescaped
control characters are rejected, as in `JSON.parse`. -/
def parseStringBody : List Char → Option (List Char × List Char)
  | [] => none
  | '"' :: rest => some ([], rest)
  | '\\' :: c :: rest =>
    match c with
    | '"' => (parseStringBody rest).map fun p => ('"' :: p.1, p.2)
    | '\\' => (parseStringBody rest).map fun p => ('\\' :: p.1, p.2)
    | '/' => (parseStringBody rest).map fun p => ('/' :: p.1, p.2)
    | 'b' => (parseStringBody rest).map fun p => (Char.ofNat 8 :: p.1, p.2)
    | 'f' => (parseStringBody rest).map fun p => (Char.ofNat 12 :: p.1, p.2)
    | 'n' => (parseStringBody rest).map fun p => ('\n' :: p.1, p.2)
    | 'r' => (parseStringBody rest).map fun p => ('\r' :: p.1, p.2)
    | 't' => (parseStringBody rest).map fun p => ('\t' :: p.1, p.2)
    | 'u' =>
      match rest with
      | h1 :: h2 :: h3 :: h4 :: r =>
        match hexDigitVal h1, hexDigitVal h2, hexDigitVal h3, hexDigitVal h4 with
        | some d1, some d2, some d3, some d4 =>
          (parseStringBody r).map fun p =>
            (Char.ofNat (((d1 * 16 + d2) * 16 + d3) * 16 + d4) :: p.1, p.2)
        | _, _, _, _ => none
      | _ => none
    | _ => none
  | c :: rest =>
    if c.toNat < 32 then none
    else (parseStringBody rest).map fun p => (c :: p.1, p.2)

/-- Longest prefix of decimal digits. -/
def takeDigits : List Char → List Char × List Char
  | [] => ([], [])
  | c :: cs =>
    if c.isDigit then
      let p := takeDigits cs
      (c :: p.1, p.2)
    else ([], c :: cs)

/-- JSON number grammar: `-? (0 | [1-9][0-9]*) (.[0-9]+)? ([eE][+-]?[0-9]+)?`.
Returns the lexeme and the remaining input. -/
def parseNumber (cs : List Char) : Option (String × List Char) :=
  let signAndRest : List Char × List Char :=
    match cs with
    | '-' :: r => (['-'], r)
    | _ => ([], cs)
  let sign := signAndRest.1
  match signAndRest.2 with
  | [] => none
  | c :: r =>
    if c = '0' then
      let intPart := [c]
      fracExp sign intPart r
    else if c.isDigit then
      let p := takeDigits r
      fracExp sign (c :: p.1) p.2
    else none
where
  fracExp (sign intPart : List Char) (rest : List Char) : Option (String × List Char) :=
    let fracAndRest : Option (List Char × List Char) :=
      match rest with
      | '.' :: r1 =>
        let p := takeDigits r1
        if p.1.isEmpty then none else some ('.' :: p.1, p.2)
      | _ => some ([], rest)
    match fracAndRest with
    | none => none
    | some (frac, rest1) =>
      let expAndRest : Option (List Char × List Char) :=
        match rest1 with
        | c :: r2 =>
          if c = 'e' ∨ c = 'E' then
            match r2 with
            | s :: r3 =>
              if s = '+' ∨ s = '-' then
                let p := takeDigits r3
                if p.1.isEmpty then none else some (c :: s :: p.1, p.2)
              else
                let p := takeDigits r2
                if p.1.isEmpty then none else some (c :: p.1, p.2)
            | [] => none
          else some ([], rest1)
        | [] => some ([], rest1)
      match expAndRest with
      | none => none
      | some (ex, rest2) => some (String.mk (sign ++ intPart ++ frac ++ ex), rest2)

/-- JavaScript object-literal field update: assigning to an existing key
overwrites it in place, a new key is appended (insertion order preserved).
Used both for duplicate keys during parsing and for
`parsed.nextAction = …`. -/
def objSet (fields : List (String × JValue)) (k : String) (v : JValue) :
    List (String × JValue) :=
  if fields.any (fun p => p.1 = k) then
    fields.map fun p => if p.1 = k then (k, v) else p
  else fields ++ [(k, v)]

mutual

def parseValue : Nat → List Char → Option (JValue × List Char)
  | 0, _ => none
  | fuel + 1, cs =>
    match skipWs cs with
    | 'n' :: 'u' :: 'l' :: 'l' :: r => some (.jnull, r)
    | 't' :: 'r' :: 'u' :: 'e' :: r => some (.jbool true, r)
    | 'f' :: 'a' :: 'l' :: 's' :: 'e' :: r => some (.jbool false, r)
    | '"' :: r => (parseStringBody r).map fun p => (.jstr (String.mk p.1), p.2)
    | c :: r =>
      if c = lbrace then
        match skipWs r with
        | c' :: r' =>
          if c' = rbrace then some (.jobj [], r')
          else (parseMembers fuel (c' :: r') []).map fun p => (.jobj p.1, p.2)
        | [] => none
      else if c = '[' then
        match skipWs r with
        | ']' :: r' => some (.jarr [], r')
        | r' => (parseElements fuel r' []).map fun p => (.jarr p.1, p.2)
      else
        (parseNumber (c :: r)).map fun p => (.jnum p.1, p.2)
    | [] => none

def parseMembers : Nat → List Char → List (String × JValue) →
    Option (List (String × JValue) × List Char)
  | 0, _, _ => none
  | fuel + 1, cs, acc =>
    match skipWs cs with
    | '"' :: r =>
      match parseStringBody r with
      | none => none
      | some (k, r1) =>
        match skipWs r1 with
        | ':' :: r2 =>
          match parseValue fuel r2 with
          | none => none
          | some (v, r3) =>
            let acc' := objSet acc (String.mk k) v
            match skipWs r3 with
            | ',' :: r4 => parseMembers fuel r4 acc'
            | c :: r4 => if c = rbrace then some (acc', r4) else none
            | [] => none
        | _ => none
    | _ => none

def parseElements : Nat → List Char → List JValue →
    Option (List JValue × List Char)
  | 0, _, _ => none
  | fuel + 1, cs, acc =>
    match parseValue fuel cs with
    | none => none
    | some (v, r1) =>
      match skipWs r1 with
      | ',' :: r2 => parseElements fuel r2 (acc ++ [v])
      | ']' :: r2 => some (acc ++ [v], r2)
      | _ => none

end

/-- Model of `JSON.parse`: parse one value, then require only trailing
whitespace; any failure is the thrown `SyntaxError`, modelled as `none`. -/
def jsonParse (s : String) : Option JValue :=
  match parseValue (s.data.length + 1) s.data with
  | some (v, rest) => if (skipWs rest).isEmpty then some v else none
  | none => none

/-! ## The two regular expressions of `_extractJSON` -/

/-- Index of the first occurrence of `pat` in `hay` (leftmost match of a
literal pattern). -/
def findSub : List Char → List Char → Option Nat
  | hay, pat =>
    if pat.isPrefixOf hay then some 0
    else
      match hay with
      | [] => none
      | _ :: t => (findSub t pat).map (· + 1)

def fenceTag : List Char := [btick, btick, btick, 'j', 's', 'o', 'n']

def fenceClose : List Char := [btick, btick, btick]

/-- Model of `text.match(/```json\s*([\s\S]*?)\s*```/)`.

The regex matches at the first occurrence of the literal ```` ```json ````
that is followed (anywhere later) by a closing ```` ``` ````; the closing
fence is the first ```` ``` ```` after the tag (a lazy group cannot reach
past it), and the interplay of the greedy `\s*` borders with the lazy group
makes the captured group the interior with `\s` trimmed from both ends.
Returns `(whole match, captured group)`. -/
def matchFence (text : String) : Option (String × String) :=
  let cs := text.data
  match findSub cs fenceTag with
  | none => none
  | some p =>
    let afterTag := (cs.drop p).drop 7
    match findSub afterTag fenceClose with
    | none => none
    | some c =>
      let interior := afterTag.take c
      let full := (cs.drop p).take (7 + c + 3)
      some (String.mk full, String.mk (trimWsList interior))

/-- Model of `text.match(/\{[\s\S]*\}/)` : the greedy span from the first
`{` to the last `}`, provided the latter comes after the former.  Returns
the whole match (the regex has no capture group). -/
def matchBraceSpan (text : String) : Option String :=
  let cs := text.data
  match findSub cs [lbrace] with
  | none => none
  | some i =>
    match findSub cs.reverse [rbrace] with
    | none => none
    | some k =>
      let j := cs.length - 1 - k
      if i < j then some (String.mk ((cs.drop i).take (j - i + 1))) else none

/-- `cs` is ```` ``` ```` followed only by `\s` characters up to the end
(the `/```\s*$/` alternative of the cleanup regex, which always extends to
the end of the string when it matches). -/
def isFenceTail (cs : List Char) : Bool :=
  fenceClose.isPrefixOf cs && (cs.drop 3).all jsWs

/-- Remove the first (and hence only) match of `/```\s*$/`. -/
def removeFenceTail : List Char → List Char
  | [] => []
  | c :: cs => if isFenceTail (c :: cs) then [] else c :: removeFenceTail cs

/-- Model of `contentToParse.replace(/^```json\s*|```\s*$/g, "").trim()`:
a leading ```` ```json ```` plus following `\s` run is removed, then—
scanning the remainder—a ```` ``` ```` followed only by `\s` up to the end
is removed, and the result is trimmed. -/
def cleanFence (s : String) : String :=
  let cs := s.data
  let cs1 := if fenceTag.isPrefixOf cs then (cs.drop 7).dropWhile jsWs else cs
  String.mk (trimWsList (removeFenceTail cs1))

/-! ## `nextAction` normalization -/

/-- JavaScript truthiness of a parsed JSON value (`undefined` handled at the
`Option` level by the callers). -/
def jsTruthy : JValue → Bool
  | .jnull => false
  | .jbool b => b
  | .jnum lexeme => lexeme.data.any fun c => c.isDigit && c ≠ '0'
  | .jstr s => !s.isEmpty
  | .jarr _ => true
  | .jobj _ => true

/-- `typeof v === "object"` for a parsed JSON value: objects, arrays and
`null`. -/
def jsTypeofObject : JValue → Bool
  | .jnull => true
  | .jarr _ => true
  | .jobj _ => true
  | _ => false

def objGet (fields : List (String × JValue)) (k : String) : Option JValue :=
  (fields.find? fun p => p.1 = k).map (·.2)

/-- Property access `v[k]` on a parsed JSON value: `none` is JavaScript
`undefined` (in particular for arrays and primitives, whose named
properties of interest here are all absent). -/
def propGet : JValue → String → Option JValue
  | .jobj fields, k => objGet fields k
  | _, _ => none

mutual

/-- JavaScript string conversion as performed by a template literal
`${x}`. -/
def jsToDisplay : JValue → String
  | .jnull => "null"
  | .jbool b => if b then "true" else "false"
  | .jnum lexeme => lexeme
  | .jstr s => s
  | .jarr xs => jsDisplayList xs
  | .jobj _ => "[object Object]"

/-- `Array.prototype.toString`: elements joined by `,`, with `null` (and
`undefined`) elements rendered as the empty string. -/
def jsDisplayList : List JValue → String
  | [] => ""
  | x :: xs =>
    let hd := match x with
      | .jnull => ""
      | v => jsToDisplay v
    match xs with
    | [] => hd
    | _ => hd ++ "," ++ jsDisplayList xs

end

/-- `${x}` where `x` may be `undefined`. -/
def jsDisplayOpt : Option JValue → String
  | none => "undefined"
  | some v => jsToDisplay v

/-- The value of
`parsed.nextAction.step || `…` (Timeline: …)` || "Seek legal counsel immediately"`
(`AIService.js` lines 330–333 and 351–354), with JavaScript `||`
semantics: each operand is returned if truthy, otherwise evaluation moves
to the next.  The template literal interpolates `step` and `timeline`
with `${…}` conversion (`undefined` when absent). -/
def flattenOrChain (stepV timelineV : Option JValue) : JValue :=
  let tmpl : JValue :=
    .jstr (jsDisplayOpt stepV ++ " (Timeline: " ++ jsDisplayOpt timelineV ++ ")")
  let tail : JValue := if jsTruthy tmpl then tmpl else .jstr "Seek legal counsel immediately"
  match stepV with
  | some v => if jsTruthy v then v else tail
  | none => tail

/-- The post-parse normalization applied by `_extractJSON` after every
successful parse (`AIService.js` lines 329–334 and 350–355), together with
its implicit error behaviour: the block reads `parsed.nextAction`, and
property access on `null` **throws a TypeError** — modelled as `none`,
absorbed by the enclosing `catch` of `_extractJSON`.  On any other
non-object value the access yields `undefined`, the condition is falsy and
`parsed` is returned unchanged; on an object with a truthy
`typeof "object"` `nextAction`, that field is replaced by the `||`-chain
value above. -/
def normalizeNextAction : JValue → Option JValue
  | .jnull => none
  | .jobj fields =>
    match objGet fields "nextAction" with
    | some na =>
      if jsTruthy na && jsTypeofObject na then
        some (.jobj (objSet fields "nextAction"
          (flattenOrChain (propGet na "step") (propGet na "timeline"))))
      else some (.jobj fields)
    | none => some (.jobj fields)
  | v => some v

/-! ## `_extractJSON` -/

/-- The fixed fallback `AnalysisResult` literal returned when every parsing
attempt fails (`AIService.js` lines 364–383). -/
def fallbackResult : JValue :=
  .jobj
    [ ("situation", .jstr "Unable to analyze situation automatically"),
      ("relevantLaws", .jarr [.jstr "Please consult with a legal professional"]),
      ("recommendedSteps",
        .jarr
          [ .jstr "Contact PAO (Public Attorney's Office) at (02) 8426-2075",
            .jstr "Visit your local barangay hall",
            .jstr "Gather all relevant documents" ]),
      ("watchOutFor",
        .jarr
          [ .jstr "Ensure all claims are documented with evidence",
            .jstr "Be aware of prescription periods for filing cases" ]),
      ("contacts",
        .jobj
          [ ("pao", .jstr "PAO: (02) 8426-2075"),
            ("barangay", .jstr "Local Barangay Hall"),
            ("pnp", .jstr "PNP Emergency: 911"),
            ("dswd", .jstr "DSWD Hotline: 1343") ]),
      ("nextAction", .jstr "Seek immediate legal counsel from PAO") ]

/-- `_extractJSON` (`AIService.js` lines 324–385): try `JSON.parse` on the
whole text followed by the `nextAction` normalization — both inside the
outer `try`, so a parse failure *or* the TypeError thrown by the
normalization on a `null` parse lands in the `catch` (modelled by
`Option.bind`: either `none` continues below).  There, take the
```` ```json … ``` ```` fence match or, failing that, the greedy
first-`{`-to-last-`}` span (`jsonMatch[1] || jsonMatch[0]` picks the
capture group when it is a non-empty string, otherwise the whole match),
clean it, and run parse-plus-normalization again inside the inner `try`;
if no match, or that attempt fails or throws (a `null` interior), return
the fixed fallback literal. -/
def extractJSON (text : String) : JValue :=
  match (jsonParse text).bind normalizeNextAction with
  | some parsed => parsed
  | none =>
    let jsonMatch : Option (String × String) :=
      match matchFence text with
      | some fg => some fg
      | none => (matchBraceSpan text).map fun m => (m, "")
    match jsonMatch with
    | some (full, group) =>
      let contentToParse := if group.isEmpty then full else group
      match (jsonParse (cleanFence contentToParse)).bind normalizeNextAction with
      | some parsed => parsed
      | none => fallbackResult
    | none => fallbackResult

/-- Modelled from the spec: the extraction procedure as §4.3 words it —
steps tried in order with the first *success* winning, where step 2
searches for a fenced triple-backtick block *optionally* tagged `json` and
parses its interior, and step 3 (the greedy `{…}` span) is still attempted
when step 2 found no parsable interior.  Kept for comparison with
`extractJSON` above, which is translated from the source. -/
def matchFenceOptTag (text : String) : Option String :=
  let cs := text.data
  match findSub cs fenceClose with
  | none => none
  | some p =>
    let afterOpen := (cs.drop p).drop 3
    let afterTag :=
      if ['j', 's', 'o', 'n'].isPrefixOf afterOpen then afterOpen.drop 4 else afterOpen
    match findSub afterTag fenceClose with
    | none => none
    | some c => some (String.mk (trimWsList (afterTag.take c)))

/-- Modelled from the spec: `_extractJSON` as the spec describes it
(see `matchFenceOptTag`).  The spec describes no error path for a `null`
parse — the flattening applies "if `nextAction` is present as a structured
object", otherwise the parsed value is returned as is — hence the
`getD parsed`. -/
def extractJSONSpecModel (text : String) : JValue :=
  match jsonParse text with
  | some parsed => (normalizeNextAction parsed).getD parsed
  | none =>
    match (matchFenceOptTag text).bind (fun i => jsonParse i) with
    | some parsed => (normalizeNextAction parsed).getD parsed
    | none =>
      match (matchBraceSpan text).bind (fun sp => jsonParse sp) with
      | some parsed => (normalizeNextAction parsed).getD parsed
      | none => fallbackResult

/-! ## Provider registry and timed cooldowns -/

/-- One entry of `this.providers` (the opaque client handle is reduced to
its presence, which is all the orchestration logic observes). -/
structure Provider where
  name : String
  hasClient : Bool
  enabled : Bool
  priority : Int
  available : Bool
deriving Repr, DecidableEq

/-- The mutable state of a `MultiAIService` instance together with the
timer environment: `pending` holds, for each `setTimeout` restoration
callback not yet fired, its absolute fire time and provider key; `now` is
the current time in milliseconds. -/
structure ServiceState where
  providers : List (String × Provider)
  lastError : List (String × String)
  pending : List (Nat × String)
  now : Nat
deriving Repr, DecidableEq

/-- `this.providers[k]` (`undefined` as `none`). -/
def lookupProvider (s : ServiceState) (k : String) : Option Provider :=
  (s.providers.find? fun p => p.1 = k).map (·.2)

/-- `this.lastError[k]`. -/
def lookupLastError (s : ServiceState) (k : String) : Option String :=
  (s.lastError.find? fun p => p.1 = k).map (·.2)

/-- The constructor of `MultiAIService`: a single `groq` entry whose
`client` and `enabled` reflect the presence of `GROQ_API_KEY`. -/
def initialState (hasGroqKey : Bool) : ServiceState :=
  { providers :=
      [ ("groq",
          { name := "Groq (Llama)", hasClient := hasGroqKey, enabled := hasGroqKey,
            priority := 1, available := true }) ],
    lastError := [], pending := [], now := 0 }

/-- The comparison relation of
`.sort((a, b) => a[1].priority - b[1].priority)` — ascending priority. -/
def priLE (a b : String × Provider) : Prop := a.2.priority ≤ b.2.priority

instance : DecidableRel priLE := fun a b =>
  inferInstanceAs (Decidable (a.2.priority ≤ b.2.priority))

/-- `getAvailableProviders` (`AIService.js` lines 24–29): the keys of the
entries with `enabled && available`, sorted ascending by priority.
`Array.prototype.sort` is a stable sort, and `List.insertionSort` with a
total preorder is the stable ascending sort, so it embeds the JS sort;
`Object.entries` enumerates keys in insertion order, matched by the
association-list representation. -/
def getAvailableProviders (s : ServiceState) : List String :=
  ((s.providers.filter fun p => p.2.enabled && p.2.available).insertionSort priLE).map (·.1)

/-- `this.providers[k].available = b` (no-op on the entry list when the key
is absent). -/
def setAvailable (s : ServiceState) (k : String) (b : Bool) : ServiceState :=
  { s with
    providers := s.providers.map fun p => if p.1 = k then (p.1, { p.2 with available := b }) else p }

/-- `markProviderUnavailable` (`AIService.js` lines 31–43): a missing key
returns immediately; otherwise `available` is cleared and a restoration
callback is scheduled `duration` ms from now (default `300000`).  The
previously scheduled callbacks are *not* cancelled. -/
def markProviderUnavailable (s : ServiceState) (k : String) (duration : Option Nat) : ServiceState :=
  match lookupProvider s k with
  | none => s
  | some _ =>
    let d := duration.getD 300000
    { setAvailable s k false with pending := s.pending ++ [(s.now + d, k)] }

/-- The body of the `setTimeout` callback (`AIService.js` lines 37–42): if
the entry still exists, set `available = true`; otherwise do nothing. -/
def fireRestore (s : ServiceState) (k : String) : ServiceState :=
  match lookupProvider s k with
  | none => s
  | some _ => setAvailable s k true

/-- Let time advance to `t`: every pending restoration that has come due
fires (each callback only sets its own key's `available` to `true`, so the
relative firing order of simultaneously due callbacks is immaterial). -/
def advanceTo (s : ServiceState) (t : Nat) : ServiceState :=
  let due := s.pending.filter fun e => e.1 ≤ t
  let rest := s.pending.filter fun e => ¬ e.1 ≤ t
  { due.foldl (fun acc e => fireRestore acc e.2) s with pending := rest, now := t }

/-- External deletion of a registry entry (`delete this.providers[k]`);
the restoration callback guards against it. -/
def removeProvider (s : ServiceState) (k : String) : ServiceState :=
  { s with providers := s.providers.filter fun p => ¬ p.1 = k }

/-! ## Errors and failure classification -/

/-- A JavaScript primitive as carried on an error's `status` / `code`
property. -/
inductive JsPrim where
  | num (n : Int)
  | str (s : String)
deriving Repr, DecidableEq

def primTruthy : JsPrim → Bool
  | .num n => n ≠ 0
  | .str s => !s.isEmpty

/-- A thrown error as observed by the failover loops: its `message` and its
optional `status` and `code` properties. -/
structure JsError where
  message : String
  status : Option JsPrim := none
  code : Option JsPrim := none
deriving Repr, DecidableEq

/-- JavaScript `a || b` on an optionally-absent primitive. -/
def jsOrPrim (a : Option JsPrim) (b : JsPrim) : JsPrim :=
  match a with
  | some v => if primTruthy v then v else b
  | none => b

/-- `error.status || error.code || ""`. -/
def errorCodeOf (e : JsError) : JsPrim :=
  jsOrPrim e.status (jsOrPrim e.code (.str ""))

/-- `s.includes(pat)`. -/
def strContains (s pat : String) : Bool :=
  (findSub s.data pat.data).isSome

/-- `message.toLowerCase()` (over the character list, so that it reduces
definitionally; ASCII behaviour coincides with JavaScript's). -/
def strToLower (s : String) : String :=
  String.mk (s.data.map Char.toLower)

/-- `_isBalanceError` (`AIService.js` lines 253–264): the lower-cased
message contains `insufficient`, `quota` or `balance`, or
`status || code || ""` strict-equals `429` or `402`. -/
def isBalanceError (e : JsError) : Bool :=
  let errorMessage := strToLower e.message
  let errorCode := errorCodeOf e
  strContains errorMessage "insufficient" || strContains errorMessage "quota" ||
    strContains errorMessage "balance" ||
    errorCode = JsPrim.num 429 || errorCode = JsPrim.num 402

/-! ## The failover loops -/

/-- `this.lastError[k] = msg`: overwrite in place or append. -/
def setLastError (s : ServiceState) (k msg : String) : ServiceState :=
  { s with
    lastError :=
      if s.lastError.any fun p => p.1 = k then
        s.lastError.map fun p => if p.1 = k then (k, msg) else p
      else s.lastError ++ [(k, msg)] }

/-- The shared `catch` block of all three loops (e.g. `AIService.js` lines
148–163): record the message in `lastError`, then cool the provider down
for 3 600 000 ms on a balance/quota error, 60 000 ms otherwise. -/
def recordFailure (s : ServiceState) (k : String) (e : JsError) : ServiceState :=
  let s1 := setLastError s k e.message
  if isBalanceError e then markProviderUnavailable s1 k (some 3600000)
  else markProviderUnavailable s1 k (some 60000)

/-- A JavaScript value as returned by a chat-completion call's
`message.content`. -/
inductive JsVal where
  | vstr (s : String)
  | vnull
  | vundef
  | vnum (n : Int)
  | vbool (b : Bool)
deriving Repr, DecidableEq

def valTruthy : JsVal → Bool
  | .vstr s => !s.isEmpty
  | .vnull => false
  | .vundef => false
  | .vnum n => n ≠ 0
  | .vbool b => b

def valIsString : JsVal → Bool
  | .vstr _ => true
  | _ => false

def valToString : JsVal → String
  | .vstr s => s
  | _ => ""

/-- `_generateResponseWithProvider` (`AIService.js` lines 296–322): for
`groq` it performs the network call (the environment `api`, returning the
response content or the thrown error); any other key throws
`Provider not configured: …`. -/
def generateResponseWithProvider (api : String → Except JsError JsVal) (provider : String) :
    Except JsError JsVal :=
  if provider = "groq" then api provider
  else .error { message := "Provider not configured: " ++ provider }

/-- `_analyzeLegalWithProvider` (`AIService.js` lines 266–294): for `groq`
the raw response text is passed through `_extractJSON`; any other key
throws `Provider not configured: …`. -/
def analyzeLegalWithProvider (api : String → Except JsError String) (provider : String) :
    Except JsError JValue :=
  if provider = "groq" then (api provider).map extractJSON
  else .error { message := "Provider not configured: " ++ provider }

/-- The `for (const provider of providers)` loop of `generateResponse`
(`AIService.js` lines 220–250): on a successful call the result is
validated (`!result || typeof result !== "string"` throws, caught by the
same `catch`); on failure the error is recorded and the loop moves on;
falling off the end returns the Filipino exhaustion fallback string. -/
def generateResponseLoop (api : String → Except JsError JsVal) :
    List String → ServiceState → String × ServiceState
  | [], s => ("Pasensya na, lahat ng AI providers ay hindi available sa ngayon.", s)
  | k :: rest, s =>
    match generateResponseWithProvider api k with
    | .ok result =>
      if !valTruthy result || !valIsString result then
        generateResponseLoop api rest
          (recordFailure s k { message := "Invalid response from " ++ k })
      else (valToString result, s)
    | .error e => generateResponseLoop api rest (recordFailure s k e)

/-- `generateResponse` (`AIService.js` lines 213–251). -/
def generateResponse (api : String → Except JsError JsVal) (s : ServiceState) :
    String × ServiceState :=
  let providers := getAvailableProviders s
  if providers.isEmpty then
    ("Pasensya na, walang available na AI service. Please check your API keys.", s)
  else generateResponseLoop api providers s

/-- The loop of `analyzeLegalSituation` (`AIService.js` lines 184–208);
falling off the end throws `All AI providers failed`. -/
def analyzeLegalSituationLoop (api : String → Except JsError String) :
    List String → ServiceState → Except String JValue × ServiceState
  | [], s => (.error "All AI providers failed", s)
  | k :: rest, s =>
    match analyzeLegalWithProvider api k with
    | .ok result => (.ok result, s)
    | .error e => analyzeLegalSituationLoop api rest (recordFailure s k e)

/-- `analyzeLegalSituation` (`AIService.js` lines 177–211). -/
def analyzeLegalSituation (api : String → Except JsError String) (s : ServiceState) :
    Except String JValue × ServiceState :=
  if (getAvailableProviders s).isEmpty then (.error "No AI providers available", s)
  else analyzeLegalSituationLoop api (getAvailableProviders s) s

/-- `JSON.stringify` of a string-valued object, for the exhaustion message
of `generateFinalSummary`. -/
def escapeJsonChar (c : Char) : String :=
  if c = '"' then "\\\""
  else if c = '\\' then "\\\\"
  else if c = '\n' then "\\n"
  else if c = '\r' then "\\r"
  else if c = '\t' then "\\t"
  else if c = Char.ofNat 8 then "\\b"
  else if c = Char.ofNat 12 then "\\f"
  else if c.toNat < 32 then
    let d1 := c.toNat / 16
    let d2 := c.toNat % 16
    let hex := fun n => if n < 10 then Char.ofNat ('0'.toNat + n) else Char.ofNat ('a'.toNat + n - 10)
    String.mk ['\\', 'u', '0', '0', hex d1, hex d2]
  else String.singleton c

def quoteJson (s : String) : String :=
  "\"" ++ String.join (s.data.map escapeJsonChar) ++ "\""

def stringifyStrMap (m : List (String × String)) : String :=
  String.mk [lbrace] ++
    String.intercalate "," (m.map fun p => quoteJson p.1 ++ ":" ++ quoteJson p.2) ++
    String.mk [rbrace]

/-- The loop of `generateFinalSummary` (`AIService.js` lines 120–165).  The
body only handles `provider === "groq"`; for any other key the iteration
does nothing and silently continues.  Falling off the end throws the
exhaustion error embedding `JSON.stringify(this.lastError)`. -/
def generateFinalSummaryLoop (api : String → Except JsError String) :
    List String → ServiceState → Except String JValue × ServiceState
  | [], s =>
    (.error ("Failed to generate summary with all providers. Last errors: " ++
        stringifyStrMap s.lastError), s)
  | k :: rest, s =>
    if k = "groq" then
      match api k with
      | .ok text => (.ok (extractJSON text), s)
      | .error e => generateFinalSummaryLoop api rest (recordFailure s k e)
    else generateFinalSummaryLoop api rest s

/-- `generateFinalSummary` (`AIService.js` lines 46–173). -/
def generateFinalSummary (api : String → Except JsError String) (s : ServiceState) :
    Except String JValue × ServiceState :=
  if (getAvailableProviders s).isEmpty then
    (.error "No AI providers available for summarization", s)
  else generateFinalSummaryLoop api (getAvailableProviders s) s

/-! ## Observation helpers -/

/-- The `available` flag of entry `k`, `none` when the entry is absent. -/
def availOf (s : ServiceState) (k : String) : Option Bool :=
  (lookupProvider s k).map (·.available)

/-- Number of fields of a JSON object (a discriminating observation). -/
def jobjFieldCount : JValue → Nat
  | .jobj fields => fields.length
  | _ => 0

/-- The error thrown by `generateResponse` when a provider call completes
with an empty or non-string value (`AIService.js` line 230). -/
def invalidErr (k : String) : JsError :=
  { message := "Invalid response from " ++ k }

/-! ## Helper lemmas about the registry state -/

theorem lookupProvider_setAvailable (s : ServiceState) (k' k : String) (b : Bool) :
    lookupProvider (setAvailable s k' b) k =
      if k' = k then (lookupProvider s k).map fun p => { p with available := b }
      else lookupProvider s k := by
  unfold lookupProvider setAvailable
  by_cases hkk : k' = k
  · subst hkk
    simp only [if_pos rfl]
    induction s.providers with
    | nil => simp
    | cons p t ih =>
      by_cases h : p.1 = k' <;> simp_all [List.find?_cons]
  · simp only [if_neg hkk]
    induction s.providers with
    | nil => simp
    | cons p t ih =>
      by_cases h : p.1 = k
      · have h' : ¬ p.1 = k' := by
          rw [h]; intro hc; exact hkk hc.symm
        simp_all [List.find?_cons]
      · by_cases h' : p.1 = k' <;> simp_all [List.find?_cons]

theorem lookupProvider_fireRestore (s : ServiceState) (k' k : String) :
    lookupProvider (fireRestore s k') k =
      if k' = k then (lookupProvider s k).map fun p => { p with available := true }
      else lookupProvider s k := by
  unfold fireRestore
  cases hl : lookupProvider s k' with
  | none =>
    by_cases h : k' = k
    · subst h; simp [hl]
    · simp [h]
  | some p => exact lookupProvider_setAvailable s k' k true

theorem lookupProvider_fireFold (l : List (Nat × String)) (s : ServiceState) (k : String) :
    lookupProvider (l.foldl (fun acc e => fireRestore acc e.2) s) k =
      if l.any (fun e => e.2 = k) then (lookupProvider s k).map fun p => { p with available := true }
      else lookupProvider s k := by
  induction l generalizing s with
  | nil => simp
  | cons e t ih =>
    simp only [List.foldl_cons, List.any_cons]
    rw [ih, lookupProvider_fireRestore]
    by_cases h : e.2 = k
    · by_cases ht : (t.any fun e => e.2 = k) = true <;>
        simp [h, ht, Option.map_map, Function.comp_def]
    · by_cases ht : (t.any fun e => e.2 = k) = true <;> simp [h, ht]

theorem lookupProvider_removeProvider (s : ServiceState) (k : String) :
    lookupProvider (removeProvider s k) k = none := by
  unfold lookupProvider removeProvider
  simp only [Option.map_eq_none', List.find?_eq_none]
  intro x hx
  have := (List.mem_filter.mp hx).2
  simpa using this

theorem lastError_markProviderUnavailable (s : ServiceState) (k : String) (d : Option Nat) :
    (markProviderUnavailable s k d).lastError = s.lastError := by
  unfold markProviderUnavailable
  cases lookupProvider s k <;> rfl

theorem lookupLastError_setLastError (s : ServiceState) (k m : String) :
    lookupLastError (setLastError s k m) k = some m := by
  unfold lookupLastError setLastError
  induction s.lastError with
  | nil => simp
  | cons p t ih =>
    by_cases h : p.1 = k
    · simp [List.any_cons, h, List.find?_cons]
    · by_cases ht : t.any (fun q => q.1 = k) = true <;>
        simp_all [List.any_cons, List.find?_cons]

theorem pending_markProviderUnavailable (s : ServiceState) (k : String) (d : Nat) (p : Provider)
    (h : lookupProvider s k = some p) :
    (markProviderUnavailable s k (some d)).pending = s.pending ++ [(s.now + d, k)] := by
  unfold markProviderUnavailable
  rw [h]
  rfl

theorem availOf_advanceTo (s : ServiceState) (t : Nat) (k : String) :
    availOf (advanceTo s t) k =
      if s.pending.any (fun e => e.1 ≤ t && e.2 = k) then (lookupProvider s k).map fun _ => true
      else availOf s k := by
  unfold availOf advanceTo
  have hfold :
      lookupProvider
          { (s.pending.filter fun e => e.1 ≤ t).foldl (fun acc e => fireRestore acc e.2) s with
              pending := s.pending.filter fun e => ¬ e.1 ≤ t, now := t } k =
        lookupProvider ((s.pending.filter fun e => e.1 ≤ t).foldl (fun acc e => fireRestore acc e.2) s) k := rfl
  rw [hfold, lookupProvider_fireFold]
  have hany : ((s.pending.filter fun e => e.1 ≤ t).any fun e => e.2 = k) =
      (s.pending.any fun e => e.1 ≤ t && e.2 = k) := by
    induction s.pending with
    | nil => rfl
    | cons e l ih =>
      by_cases h : e.1 ≤ t <;> simp [List.filter_cons, List.any_cons, h, ih]
  rw [hany]
  by_cases h : (s.pending.any fun e => e.1 ≤ t && e.2 = k) = true
  · simp [h, Option.map_map, Function.comp_def]
  · simp [h]

/-! ## Helper lemmas about the failover loops under total failure -/

theorem generateResponseLoop_allFail (api : String → Except JsError JsVal) (eg : JsError)
    (hg : api "groq" = .error eg) :
    ∀ (l : List String) (s : ServiceState),
      (generateResponseLoop api l s).1 =
        "Pasensya na, lahat ng AI providers ay hindi available sa ngayon." := by
  intro l
  induction l with
  | nil => intro s; rfl
  | cons k t ih =>
    intro s
    by_cases h : k = "groq"
    · subst h
      simp [generateResponseLoop, generateResponseWithProvider, hg, ih]
    · simp [generateResponseLoop, generateResponseWithProvider, h, ih]

theorem analyzeLegalSituationLoop_allFail (api : String → Except JsError String) (eg : JsError)
    (hg : api "groq" = .error eg) :
    ∀ (l : List String) (s : ServiceState),
      (analyzeLegalSituationLoop api l s).1 = .error "All AI providers failed" := by
  intro l
  induction l with
  | nil => intro s; rfl
  | cons k t ih =>
    intro s
    by_cases h : k = "groq"
    · subst h
      simp [analyzeLegalSituationLoop, analyzeLegalWithProvider, Except.map, hg, ih]
    · simp [analyzeLegalSituationLoop, analyzeLegalWithProvider, Except.map, h, ih]

theorem generateFinalSummaryLoop_allFail (api : String → Except JsError String) (eg : JsError)
    (hg : api "groq" = .error eg) :
    ∀ (l : List String) (s : ServiceState),
      (generateFinalSummaryLoop api l s).1 =
        .error ("Failed to generate summary with all providers. Last errors: " ++
          stringifyStrMap (generateFinalSummaryLoop api l s).2.lastError) := by
  intro l
  induction l with
  | nil => intro s; rfl
  | cons k t ih =>
    intro s
    by_cases h : k = "groq"
    · subst h
      simp [generateFinalSummaryLoop, hg, ih]
    · simp [generateFinalSummaryLoop, h, ih]

theorem lookupLastError_markProviderUnavailable (s : ServiceState) (k' k : String)
    (d : Option Nat) :
    lookupLastError (markProviderUnavailable s k' d) k = lookupLastError s k := by
  unfold lookupLastError
  rw [lastError_markProviderUnavailable]

/-! ## Claim theorems -/

/-- **C1.** Evaluation of `_extractJSON`'s `nextAction` flattening at the
claim's own example inputs.  The `||` chain at `AIService.js:330-333`
returns `step` whenever it is truthy, so `{step:"Call PAO",
timeline:"within 24h"}` flattens to `"Call PAO"` and **not** to
`"Call PAO (Timeline: within 24h)"` as the claim (and the repository's own
`fix-summaries.js` repair script) require; and when `step` is absent the
always-truthy template string makes the result
`"undefined (Timeline: …)"`, never the fixed literal, which is dead
code. -/
theorem extractJSON_nextAction_flattening_bug :
    extractJSON "\x7b\"nextAction\":\x7b\"step\":\"Call PAO\",\"timeline\":\"within 24h\"\x7d\x7d"
      = JValue.jobj [("nextAction", JValue.jstr "Call PAO")] ∧
    "Call PAO" ≠ "Call PAO (Timeline: within 24h)" ∧
    extractJSON "\x7b\"nextAction\":\x7b\"step\":\"Call PAO\"\x7d\x7d"
      = JValue.jobj [("nextAction", JValue.jstr "Call PAO")] ∧
    extractJSON "\x7b\"nextAction\":\x7b\"timeline\":\"within 24h\"\x7d\x7d"
      = JValue.jobj [("nextAction", JValue.jstr "undefined (Timeline: within 24h)")] ∧
    "undefined (Timeline: within 24h)" ≠ "Seek legal counsel immediately" :=
  ⟨rfl, by decide, rfl, rfl, by decide⟩

/-- **C2** (counterexample).  Re-invoking `markProviderUnavailable` while the
provider is already unavailable does *not* reset the cooldown window: the
first `setTimeout` callback is never cancelled, so after marking `groq`
for 100 ms at time 0 and re-marking it for 1000 ms at time 10, the
provider is available again at time 100 — before the most recently
requested window `10 + 1000` has elapsed, contradicting last-write-wins. -/
theorem markProviderUnavailable_lastWriteWins_cex :
    getAvailableProviders
        (advanceTo
          (markProviderUnavailable
            (advanceTo (markProviderUnavailable (initialState true) "groq" (some 100)) 10)
            "groq" (some 1000))
          100)
      = ["groq"] ∧ (100 : Nat) < 10 + 1000 :=
  ⟨rfl, by decide⟩

/-- **C2** (amended).  For a registered provider `k`,
`markProviderUnavailable k (some d)` clears `available` immediately,
defaults to 300 000 ms when no duration is given, and schedules an
*additional* restoration at `now + d` without cancelling earlier ones;
when no earlier restoration for `k` is pending, `available` becomes `true`
exactly when time reaches `now + d`.  (With earlier restorations pending,
the earliest one wins — see the counterexample.) -/
theorem markProviderUnavailable_cooldown (s : ServiceState) (k : String) (p : Provider)
    (d t : Nat) (hk : lookupProvider s k = some p) (hp : ∀ e ∈ s.pending, e.2 ≠ k) :
    availOf (markProviderUnavailable s k (some d)) k = some false ∧
    markProviderUnavailable s k none = markProviderUnavailable s k (some 300000) ∧
    (markProviderUnavailable s k (some d)).pending = s.pending ++ [(s.now + d, k)] ∧
    availOf (advanceTo (markProviderUnavailable s k (some d)) t) k
      = some (decide (s.now + d ≤ t)) := by
  have hmark : markProviderUnavailable s k (some d)
      = { setAvailable s k false with pending := s.pending ++ [(s.now + d, k)] } := by
    unfold markProviderUnavailable
    rw [hk]
    rfl
  refine ⟨?_, ?_, ?_, ?_⟩
  · rw [hmark]
    unfold availOf
    have hpr : lookupProvider
        { setAvailable s k false with pending := s.pending ++ [(s.now + d, k)] } k
        = lookupProvider (setAvailable s k false) k := rfl
    rw [hpr, lookupProvider_setAvailable]
    simp [hk]
  · rfl
  · exact pending_markProviderUnavailable s k d p hk
  · rw [hmark, availOf_advanceTo]
    have hpend : ((s.pending ++ [(s.now + d, k)]).any fun e => e.1 ≤ t && e.2 = k)
        = decide (s.now + d ≤ t) := by
      rw [List.any_append]
      have h0 : (s.pending.any fun e => e.1 ≤ t && e.2 = k) = false := by
        rw [List.any_eq_false]
        intro e he
        simp [hp e he]
      simp [h0]
    rw [hpend]
    have hlook : lookupProvider
        { setAvailable s k false with pending := s.pending ++ [(s.now + d, k)] } k
        = some { p with available := false } := by
      have hpr : lookupProvider
          { setAvailable s k false with pending := s.pending ++ [(s.now + d, k)] } k
          = lookupProvider (setAvailable s k false) k := rfl
      rw [hpr, lookupProvider_setAvailable]
      simp [hk]
    by_cases hd : s.now + d ≤ t
    · simp [hd, hlook]
    · simp [hd, availOf, hlook]

/-- **C2** (witness): the amended theorem applied to the initial registry,
`d = 5`, observed at `t = 7`. -/
theorem markProviderUnavailable_cooldown_witness :
    availOf (markProviderUnavailable (initialState true) "groq" (some 5)) "groq" = some false ∧
    availOf (advanceTo (markProviderUnavailable (initialState true) "groq" (some 5)) 7) "groq"
      = some true := by
  have h := markProviderUnavailable_cooldown (initialState true) "groq"
      { name := "Groq (Llama)", hasClient := true, enabled := true, priority := 1,
        available := true }
      5 7 rfl (by intro e he; cases he)
  exact ⟨h.1, by simpa using h.2.2.2⟩

/-- **C3** (counterexample).  `_isBalanceError` does *not* test for
`billing`, `limit exceeded`, or the error code `"insufficient_quota"`:
each of these, claimed to classify as a quota/balance failure, is
classified as transient by the code. -/
theorem isBalanceError_missing_disjuncts_cex :
    isBalanceError { message := "billing hard stop" } = false ∧
    strContains (strToLower "billing hard stop") "billing" = true ∧
    isBalanceError { message := "limit exceeded" } = false ∧
    strContains (strToLower "limit exceeded") "limit exceeded" = true ∧
    isBalanceError { message := "payment error", code := some (.str "insufficient_quota") } = false :=
  ⟨rfl, rfl, rfl, rfl, rfl⟩

/-- **C3** (amended).  `_isBalanceError` returns `true` exactly when the
lower-cased message contains `insufficient`, `quota` or `balance`, or when
the carried code (`status || code || ""`) strict-equals `429` or `402` —
`billing`, `limit exceeded` and `"insufficient_quota"` are not tested. -/
theorem isBalanceError_characterization (e : JsError) :
    isBalanceError e = true ↔
      strContains (strToLower e.message) "insufficient" = true ∨
      strContains (strToLower e.message) "quota" = true ∨
      strContains (strToLower e.message) "balance" = true ∨
      errorCodeOf e = JsPrim.num 429 ∨ errorCodeOf e = JsPrim.num 402 := by
  unfold isBalanceError
  simp [Bool.or_eq_true, decide_eq_true_eq, or_assoc]

/-- **C4** (counterexample).  Three inputs on which `_extractJSON` differs
from the claim's description of it.  First: a `json`-tagged fence whose
interior is unparsable followed by a parsable `{…}` span — the claim's
"first success wins" would continue to the greedy-span step, but the code
returns the fallback as soon as the fence's interior fails to parse.
Second: an *untagged* fence with a parsable interior — the claim says the
fence step is "optionally tagged json", but the code's regex requires the
tag, and the greedy span (stretching to the *last* `}`) fails to parse, so
the code again returns the fallback where the claimed procedure succeeds.
Third: the text `null` — step (1) parses it successfully, so under "first
success wins" the result would be the parsed `null`, but the code's
normalization throws a TypeError on `parsed.nextAction`, the `catch`
absorbs it, and (no fence, no span) the fallback is returned; likewise a
fence whose interior parses to `null` yields the fallback. -/
theorem extractJSON_fence_divergence_cex :
    extractJSON "```json\nnot json\n``` \x7b\"a\":1\x7d" = fallbackResult ∧
    extractJSONSpecModel "```json\nnot json\n``` \x7b\"a\":1\x7d"
      = JValue.jobj [("a", JValue.jnum "1")] ∧
    extractJSON "\x7b\"x\" ``` \x7b\"a\":1\x7d ```" = fallbackResult ∧
    extractJSONSpecModel "\x7b\"x\" ``` \x7b\"a\":1\x7d ```"
      = JValue.jobj [("a", JValue.jnum "1")] ∧
    fallbackResult ≠ JValue.jobj [("a", JValue.jnum "1")] ∧
    jsonParse "null" = some JValue.jnull ∧
    extractJSON "null" = fallbackResult ∧
    extractJSON "```json\nnull\n```" = fallbackResult ∧
    extractJSONSpecModel "null" = JValue.jnull ∧
    fallbackResult ≠ JValue.jnull :=
  ⟨rfl, rfl, rfl, rfl, fun h => absurd (congrArg jobjFieldCount h) (by decide),
    rfl, rfl, rfl, rfl, fun h => absurd (congrArg jobjFieldCount h) (by decide)⟩

/-- The normalization throws exactly on a `null` parse result. -/
theorem normalizeNextAction_none_iff (v : JValue) :
    normalizeNextAction v = none ↔ v = JValue.jnull := by
  cases v with
  | jnull => simp [normalizeNextAction]
  | jobj fields =>
    constructor
    · intro h
      exfalso
      simp only [normalizeNextAction] at h
      rcases hg : objGet fields "nextAction" with _ | na
      · rw [hg] at h
        simp at h
      · rw [hg] at h
        split at h <;> try simp at h
        split at h <;> simp at h
    · intro h
      cases h
  | jbool b => simp [normalizeNextAction]
  | jnum l => simp [normalizeNextAction]
  | jstr s => simp [normalizeNextAction]
  | jarr xs => simp [normalizeNextAction]

/-- **C4** (amended).  `_extractJSON` is the following total cascade — so it
never propagates a parse error: (1) parse the whole text and normalize it,
where normalizing a `null` parse throws a caught TypeError (modelled by
`normalizeNextAction = none`, which holds exactly for `null`) and is
treated like a parse failure; (2) otherwise find a ```` ```json ````-tagged
fence (the tag is required) and run parse-plus-normalization on its
cleaned interior, falling directly to the fixed fallback when that attempt
fails or throws; (3) only when no tagged fence matched, do the same with
the cleaned greedy first-`{`-to-last-`}` span; (4) otherwise return the
fixed fallback literal. -/
theorem extractJSON_cascade (text : String) :
    (∀ v, normalizeNextAction v = none ↔ v = JValue.jnull) ∧
    (∀ v v', jsonParse text = some v → normalizeNextAction v = some v' →
      extractJSON text = v') ∧
    ((jsonParse text).bind normalizeNextAction = none →
      ∀ full group, matchFence text = some (full, group) →
      extractJSON text =
        match (jsonParse (cleanFence (if group.isEmpty then full else group))).bind
            normalizeNextAction with
        | some v => v
        | none => fallbackResult) ∧
    ((jsonParse text).bind normalizeNextAction = none → matchFence text = none →
      ∀ span, matchBraceSpan text = some span →
      extractJSON text =
        match (jsonParse (cleanFence span)).bind normalizeNextAction with
        | some v => v
        | none => fallbackResult) ∧
    ((jsonParse text).bind normalizeNextAction = none → matchFence text = none →
      matchBraceSpan text = none → extractJSON text = fallbackResult) := by
  refine ⟨normalizeNextAction_none_iff, ?_, ?_, ?_, ?_⟩
  · intro v v' hv hv'
    unfold extractJSON
    rw [hv, Option.some_bind, hv']
  · intro h0 full group hf
    unfold extractJSON
    rw [h0, hf]
  · intro h0 h1 span hs
    unfold extractJSON
    rw [h0, h1, hs]
    rfl
  · intro h0 h1 h2
    unfold extractJSON
    rw [h0, h1, h2]
    rfl

/-- **C4** (witness): the amended cascade applied to a directly parsable
text and to text with neither a full JSON body (nor a fence) but a
parsable greedy span. -/
theorem extractJSON_cascade_witness :
    extractJSON "\x7b\"a\":2\x7d" = JValue.jobj [("a", JValue.jnum "2")] ∧
    extractJSON "pre \x7b\"a\":1\x7d post" = JValue.jobj [("a", JValue.jnum "1")] := by
  refine ⟨?_, ?_⟩
  · exact (extractJSON_cascade "\x7b\"a\":2\x7d").2.1
      (JValue.jobj [("a", JValue.jnum "2")]) (JValue.jobj [("a", JValue.jnum "2")]) rfl rfl
  · have h := (extractJSON_cascade "pre \x7b\"a\":1\x7d post").2.2.2.1 rfl rfl
      "\x7b\"a\":1\x7d" rfl
    exact h.trans (by rfl)

/-- **C5.** In each of the three failover loops a failed provider call
records the error message in `lastError` keyed by the provider, marks the
provider unavailable for 3 600 000 ms when `_isBalanceError` classifies the
failure as quota/balance and 60 000 ms otherwise, and continues with the
remaining providers.  (In `generateFinalSummary` only the `groq` branch
performs a call at all, hence the `k = "groq"` guard there.) -/
theorem failover_failure_step (apiR : String → Except JsError JsVal)
    (apiT : String → Except JsError String) (k : String) (rest : List String)
    (s : ServiceState) (e : JsError) :
    (generateResponseWithProvider apiR k = .error e →
      generateResponseLoop apiR (k :: rest) s
        = generateResponseLoop apiR rest (recordFailure s k e)) ∧
    (analyzeLegalWithProvider apiT k = .error e →
      analyzeLegalSituationLoop apiT (k :: rest) s
        = analyzeLegalSituationLoop apiT rest (recordFailure s k e)) ∧
    (k = "groq" → apiT "groq" = .error e →
      generateFinalSummaryLoop apiT (k :: rest) s
        = generateFinalSummaryLoop apiT rest (recordFailure s k e)) ∧
    lookupLastError (recordFailure s k e) k = some e.message ∧
    recordFailure s k e =
      markProviderUnavailable (setLastError s k e.message) k
        (some (if isBalanceError e then 3600000 else 60000)) := by
  refine ⟨?_, ?_, ?_, ?_, ?_⟩
  · intro h
    simp [generateResponseLoop, h]
  · intro h
    simp [analyzeLegalSituationLoop, h]
  · intro hk h
    subst hk
    simp [generateFinalSummaryLoop, h]
  · by_cases hb : isBalanceError e = true <;>
      simp [recordFailure, hb, lookupLastError_markProviderUnavailable,
        lookupLastError_setLastError]
  · by_cases hb : isBalanceError e = true <;> simp [recordFailure, hb]

/-- **C5** (witness): one failing `groq` call in `generateResponse`'s loop,
with a transient error. -/
theorem failover_failure_step_witness :
    generateResponseLoop (fun _ => .error { message := "boom" }) ["groq"] (initialState true)
      = generateResponseLoop (fun _ => .error { message := "boom" }) []
          (recordFailure (initialState true) "groq" { message := "boom" }) :=
  (failover_failure_step (fun _ => .error { message := "boom" })
    (fun _ => .error { message := "boom" }) "groq" [] (initialState true)
    { message := "boom" }).1 rfl

/-- **C6** (counterexample).  On exhaustion `analyzeLegalSituation` raises
the constant message `All AI providers failed`: the accumulated
per-provider last-error map (here `{"groq":"boom"}`) is *not* carried by
the raised error (only `generateFinalSummary` embeds it). -/
theorem analyzeLegal_exhaustion_cex :
    (analyzeLegalSituation (fun _ => .error { message := "boom" }) (initialState true)).1
      = .error "All AI providers failed" ∧
    (analyzeLegalSituation (fun _ => .error { message := "boom" }) (initialState true)).2.lastError
      = [("groq", "boom")] ∧
    strContains "All AI providers failed" (stringifyStrMap [("groq", "boom")]) = false ∧
    strContains "All AI providers failed" "boom" = false :=
  ⟨rfl, rfl, rfl, rfl⟩

/-- **C6** (amended).  With no enabled-and-available provider,
`generateResponse` returns the localized Filipino no-service string (it is
total, hence never raises), while `generateFinalSummary` and
`analyzeLegalSituation` raise immediately; when the `groq` call fails (and
hence every loop iteration fails), `generateResponse` returns the
localized exhaustion string, `generateFinalSummary` raises an error
carrying `JSON.stringify` of the accumulated `lastError` map, and
`analyzeLegalSituation` raises the fixed message
`All AI providers failed` (which does not carry the map). -/
theorem entryPoints_on_empty_and_exhaustion (apiR : String → Except JsError JsVal)
    (apiT apiU : String → Except JsError String) (s : ServiceState) (eR eT eU : JsError) :
    (getAvailableProviders s = [] →
      generateResponse apiR s
          = ("Pasensya na, walang available na AI service. Please check your API keys.", s) ∧
      generateFinalSummary apiT s = (.error "No AI providers available for summarization", s) ∧
      analyzeLegalSituation apiU s = (.error "No AI providers available", s)) ∧
    (apiR "groq" = .error eR → getAvailableProviders s ≠ [] →
      (generateResponse apiR s).1
        = "Pasensya na, lahat ng AI providers ay hindi available sa ngayon.") ∧
    (apiT "groq" = .error eT → getAvailableProviders s ≠ [] →
      (generateFinalSummary apiT s).1
        = .error ("Failed to generate summary with all providers. Last errors: " ++
            stringifyStrMap (generateFinalSummary apiT s).2.lastError)) ∧
    (apiU "groq" = .error eU → getAvailableProviders s ≠ [] →
      (analyzeLegalSituation apiU s).1 = .error "All AI providers failed") := by
  refine ⟨?_, ?_, ?_, ?_⟩
  · intro h
    refine ⟨?_, ?_, ?_⟩ <;>
      simp [generateResponse, generateFinalSummary, analyzeLegalSituation, h]
  · intro hg hne
    have hie : (getAvailableProviders s).isEmpty = false := by
      cases hgp : getAvailableProviders s with
      | nil => exact absurd hgp hne
      | cons a l => rfl
    simp [generateResponse, hie, generateResponseLoop_allFail apiR eR hg]
  · intro hg hne
    have hie : (getAvailableProviders s).isEmpty = false := by
      cases hgp : getAvailableProviders s with
      | nil => exact absurd hgp hne
      | cons a l => rfl
    simp only [generateFinalSummary, hie, Bool.false_eq_true, if_false]
    exact generateFinalSummaryLoop_allFail apiT eT hg _ _
  · intro hg hne
    have hie : (getAvailableProviders s).isEmpty = false := by
      cases hgp : getAvailableProviders s with
      | nil => exact absurd hgp hne
      | cons a l => rfl
    simp [analyzeLegalSituation, hie, analyzeLegalSituationLoop_allFail apiU eU hg]

/-- **C6** (witness): the amended theorem applied to the no-key registry
(no providers) and to the single-provider registry with a failing call. -/
theorem entryPoints_on_empty_and_exhaustion_witness :
    (generateResponse (fun _ => .ok (.vstr "x")) (initialState false)).1
      = "Pasensya na, walang available na AI service. Please check your API keys." ∧
    (generateResponse (fun _ => .error { message := "downR" }) (initialState true)).1
      = "Pasensya na, lahat ng AI providers ay hindi available sa ngayon." := by
  have h1 := (entryPoints_on_empty_and_exhaustion (fun _ => .ok (.vstr "x"))
      (fun _ => .ok "x") (fun _ => .ok "x") (initialState false)
      { message := "x" } { message := "x" } { message := "x" }).1 rfl
  have h2 := (entryPoints_on_empty_and_exhaustion (fun _ => .error { message := "downR" })
      (fun _ => .ok "x") (fun _ => .ok "x") (initialState true)
      { message := "downR" } { message := "x" } { message := "x" }).2.1 rfl (by decide)
  exact ⟨congrArg Prod.fst h1.1, h2⟩

/-- **C7.** `getAvailableProviders` returns exactly the keys of the entries
with `enabled && available`, as the key projection of the stable
(insertion) sort by ascending priority of the filtered registry: a key is
returned iff such an entry exists, the sorted entry list is pairwise
non-decreasing in priority, it is a permutation of the filtered registry,
and any two filtered entries in registry (= registration) order whose
priorities satisfy `≤` — in particular ties — keep their relative order.
The function reads the state and builds a fresh list, modifying nothing. -/
theorem getAvailableProviders_spec (s : ServiceState) :
    getAvailableProviders s
        = ((s.providers.filter fun p => p.2.enabled && p.2.available).insertionSort
            priLE).map (·.1) ∧
    (∀ k, k ∈ getAvailableProviders s ↔
        ∃ p, (k, p) ∈ s.providers ∧ p.enabled = true ∧ p.available = true) ∧
    List.Pairwise priLE
      ((s.providers.filter fun p => p.2.enabled && p.2.available).insertionSort priLE) ∧
    ((s.providers.filter fun p => p.2.enabled && p.2.available).insertionSort priLE).Perm
      (s.providers.filter fun p => p.2.enabled && p.2.available) ∧
    (∀ a b : String × Provider, priLE a b →
      [a, b].Sublist (s.providers.filter fun p => p.2.enabled && p.2.available) →
      [a, b].Sublist
        ((s.providers.filter fun p => p.2.enabled && p.2.available).insertionSort priLE)) := by
  refine ⟨rfl, ?_, ?_, ?_, ?_⟩
  · intro k
    unfold getAvailableProviders
    simp only [List.mem_map, List.mem_insertionSort, List.mem_filter, Bool.and_eq_true]
    constructor
    · rintro ⟨⟨k', p⟩, ⟨hmem, he, ha⟩, hk⟩
      obtain rfl : k' = k := hk
      exact ⟨p, hmem, he, ha⟩
    · rintro ⟨p, hmem, he, ha⟩
      exact ⟨(k, p), ⟨hmem, he, ha⟩, rfl⟩
  · haveI : IsTotal (String × Provider) priLE := ⟨fun a b => Int.le_total _ _⟩
    haveI : IsTrans (String × Provider) priLE := ⟨fun _ _ _ hab hbc => le_trans hab hbc⟩
    exact List.sorted_insertionSort priLE _
  · exact List.perm_insertionSort priLE _
  · intro a b hab hsub
    exact List.pair_sublist_insertionSort hab hsub

/-- **C7** (witness): membership for the initial registry, and order
preservation for two equal-priority entries in registration order. -/
theorem getAvailableProviders_spec_witness :
    let pA : Provider :=
      { name := "A", hasClient := true, enabled := true, priority := 2, available := true }
    let pB : Provider :=
      { name := "B", hasClient := true, enabled := true, priority := 2, available := true }
    let s2 : ServiceState :=
      { providers := [("a", pA), ("b", pB)], lastError := [], pending := [], now := 0 }
    "groq" ∈ getAvailableProviders (initialState true) ∧
    [("a", pA), ("b", pB)].Sublist
      ((s2.providers.filter fun p => p.2.enabled && p.2.available).insertionSort priLE) := by
  intro pA pB s2
  constructor
  · exact ((getAvailableProviders_spec (initialState true)).2.1 "groq").mpr
      ⟨{ name := "Groq (Llama)", hasClient := true, enabled := true, priority := 1,
          available := true },
        by simp [initialState], rfl, rfl⟩
  · refine (getAvailableProviders_spec s2).2.2.2.2 ("a", pA) ("b", pB) ?_ ?_
    · exact le_refl (2 : Int)
    · have hf : (s2.providers.filter fun p => p.2.enabled && p.2.available)
          = [("a", pA), ("b", pB)] := rfl
      rw [hf]

/-- **C8.** When the call on the first attempted provider succeeds (and, for
`generateResponse`, passes the non-empty-string validation), each entry
point returns the provider's (post-normalized) result paired with the
*unchanged* state: no cooldown is applied and `lastError` keeps exactly
its prior entries. -/
theorem firstProviderSuccess_frame (apiR : String → Except JsError JsVal)
    (apiT apiU : String → Except JsError String) (k : String) (rest : List String)
    (s : ServiceState) (v : JsVal) (text : String) (j : JValue) :
    (getAvailableProviders s = k :: rest → generateResponseWithProvider apiR k = .ok v →
      valTruthy v = true → valIsString v = true →
      generateResponse apiR s = (valToString v, s)) ∧
    (getAvailableProviders s = k :: rest → k = "groq" → apiT "groq" = .ok text →
      generateFinalSummary apiT s = (.ok (extractJSON text), s)) ∧
    (getAvailableProviders s = k :: rest → analyzeLegalWithProvider apiU k = .ok j →
      analyzeLegalSituation apiU s = (.ok j, s)) := by
  refine ⟨?_, ?_, ?_⟩
  · intro hgp hok hvt hvs
    simp [generateResponse, hgp, generateResponseLoop, hok, hvt, hvs]
  · intro hgp hk hok
    subst hk
    simp [generateFinalSummary, hgp, generateFinalSummaryLoop, hok]
  · intro hgp hok
    simp [analyzeLegalSituation, hgp, analyzeLegalSituationLoop, hok]

/-- **C8** (witness): a first-attempt success on the initial registry
returns the text and leaves the state untouched. -/
theorem firstProviderSuccess_frame_witness :
    generateResponse (fun _ => .ok (.vstr "Magandang araw")) (initialState true)
      = ("Magandang araw", initialState true) :=
  (firstProviderSuccess_frame (fun _ => .ok (.vstr "Magandang araw"))
      (fun _ => .ok "x") (fun _ => .ok "x") "groq" [] (initialState true)
      (.vstr "Magandang araw") "x" (extractJSON "x")).1 rfl rfl rfl rfl

/-- **C9.** `markProviderUnavailable` on a key absent from the registry is a
complete no-op (no flag changes, nothing scheduled), and the deferred
restoration callback re-checks existence, so firing it after the entry has
been removed leaves the state unchanged. -/
theorem markProviderUnavailable_frame (s : ServiceState) (k : String) (d : Option Nat) :
    (lookupProvider s k = none →
      markProviderUnavailable s k d = s ∧ fireRestore s k = s) ∧
    fireRestore (removeProvider s k) k = removeProvider s k := by
  constructor
  · intro h
    constructor
    · unfold markProviderUnavailable
      rw [h]
    · unfold fireRestore
      rw [h]
  · unfold fireRestore
    rw [lookupProvider_removeProvider]

/-- **C9** (witness): marking the unregistered key `gemini` changes
nothing. -/
theorem markProviderUnavailable_frame_witness :
    markProviderUnavailable (initialState true) "gemini" none = initialState true :=
  ((markProviderUnavailable_frame (initialState true) "gemini" none).1 rfl).1

/-- **C10.** In `generateResponse`, a provider call that completes with an
empty string or a non-string value is handled exactly like a thrown
failure: the loop records `Invalid response from {provider}` in
`lastError` and — since that message never classifies as a balance error
for the `groq` provider — marks the provider unavailable for 60 000 ms,
then moves to the next provider. -/
theorem invalidResponse_failure (apiR : String → Except JsError JsVal) (k : String)
    (rest : List String) (s : ServiceState) (v : JsVal) :
    (generateResponseWithProvider apiR k = .ok v →
      valTruthy v = false ∨ valIsString v = false →
      generateResponseLoop apiR (k :: rest) s
        = generateResponseLoop apiR rest (recordFailure s k (invalidErr k))) ∧
    recordFailure s "groq" (invalidErr "groq")
      = markProviderUnavailable (setLastError s "groq" "Invalid response from groq") "groq"
          (some 60000) ∧
    lookupLastError (recordFailure s "groq" (invalidErr "groq")) "groq"
      = some "Invalid response from groq" := by
  refine ⟨?_, ?_, ?_⟩
  · intro hok hbad
    have hcond : (!valTruthy v || !valIsString v) = true := by
      rcases hbad with h | h <;> simp [h]
    simp [generateResponseLoop, hok, hcond, invalidErr]
  · have hb : isBalanceError
        { message := "Invalid response from groq", status := none, code := none } = false := rfl
    simp [recordFailure, invalidErr, hb]
  · have hb : isBalanceError
        { message := "Invalid response from groq", status := none, code := none } = false := rfl
    simp [recordFailure, invalidErr, hb, lookupLastError_markProviderUnavailable,
      lookupLastError_setLastError]

/-- **C10** (witness): an empty-string response from `groq` takes the
failure path. -/
theorem invalidResponse_failure_witness :
    generateResponseLoop (fun _ => .ok (.vstr "")) ["groq"] (initialState true)
      = generateResponseLoop (fun _ => .ok (.vstr "")) []
          (recordFailure (initialState true) "groq" (invalidErr "groq")) :=
  (invalidResponse_failure (fun _ => .ok (.vstr "")) "groq" [] (initialState true)
    (.vstr "")).1 rfl (Or.inl rfl)

end AIService
